import Mathlib

/-!
Shallow embedding of the data/authorization core of the `ai-kanban`
repository (services over a relational store), together with theorems
checking the natural-language specification against the code.

The database is modelled as lists of rows (one list per table, in
insertion order, matching SQLite append semantics).  Each service
method of the source becomes a Lean function taking the database state
(plus the values that the runtime supplies implicitly: freshly
generated ids and the current clock) and returning the new database
state together with `Except String r`, where the `String` of the error
case is the exact message thrown by the source.  Timestamps are
modelled as integers, and the `real` position columns as integers: the
source only ever compares positions and adds 1 to them, which the
integer model reflects exactly for the inputs at issue.
-/

namespace AiKanban

/-- Membership roles, from the `role` enum of `user_organizations` in
`src/db/schema.ts`. -/
inductive Role where
  | owner
  | admin
  | member
  | viewer
deriving DecidableEq

/-- A row of the `users` table (columns not read by the modelled
services are omitted). -/
structure UserRow where
  id : String
  email : String
  name : String
deriving DecidableEq

/-- A row of the `organizations` table. -/
structure OrganizationRow where
  id : String
  name : String
  slug : String
  createdBy : String
  createdAt : Int
  updatedAt : Int
deriving DecidableEq

/-- A row of the `user_organizations` membership table. -/
structure MembershipRow where
  userId : String
  organizationId : String
  role : Role
deriving DecidableEq

/-- A row of the `boards` table. -/
structure BoardRow where
  id : String
  organizationId : String
  name : String
  description : Option String
  createdBy : String
  archivedAt : Option Int
  createdAt : Int
  updatedAt : Int
deriving DecidableEq

/-- A row of the `lists` table. -/
structure ListRow where
  id : String
  boardId : String
  name : String
  position : Int
  createdAt : Int
  updatedAt : Int
deriving DecidableEq

/-- A row of the `cards` table. -/
structure CardRow where
  id : String
  listId : String
  title : String
  description : Option String
  position : Int
  dueDate : Option Int
  createdBy : String
  createdAt : Int
  updatedAt : Int
deriving DecidableEq

/-- A row of the `card_comments` table. -/
structure CommentRow where
  id : String
  cardId : String
  userId : String
  content : String
  createdAt : Int
  updatedAt : Int
deriving DecidableEq

/-- The database state: one list of rows per table, in insertion
order. -/
structure DB where
  users : List UserRow
  organizations : List OrganizationRow
  memberships : List MembershipRow
  boards : List BoardRow
  lists : List ListRow
  cards : List CardRow
  comments : List CommentRow
deriving DecidableEq

/-- The query `SELECT ... FROM user_organizations WHERE organization_id = ? AND
user_id = ? LIMIT 1` viewed as an existence test: does the user have a
membership row on the organization?  This is the access check of
`BoardService.create` and the membership leg of every inner join on
`userOrganizations` in the source. -/
def memberOf (db : DB) (userId organizationId : String) : Bool :=
  db.memberships.any fun m =>
    m.userId == userId && m.organizationId == organizationId

/-- The access query of `ListService.create` (`src/services/list.service`):
`boards ⋈ userOrganizations` filtered on the board id and user id, as an
existence test. -/
def boardOrgAccess (db : DB) (boardId userId : String) : Bool :=
  db.boards.any fun b =>
    b.id == boardId && memberOf db userId b.organizationId

/-- The access query used by `CardService.create` and the
list/update/delete paths: `lists ⋈ boards ⋈ userOrganizations` filtered
on the list id and user id, as an existence test. -/
def listOrgAccess (db : DB) (listId userId : String) : Bool :=
  db.lists.any fun l =>
    l.id == listId && boardOrgAccess db l.boardId userId

/-- The access query used by `CardService.update/move/delete` and
`CommentService.create`: `cards ⋈ lists ⋈ boards ⋈ userOrganizations`
filtered on the card id and user id, as an existence test. -/
def cardOrgAccess (db : DB) (cardId userId : String) : Bool :=
  db.cards.any fun c =>
    c.id == cardId && listOrgAccess db c.listId userId

/-- The access query of `CommentService.update/delete`: the first row of
`cardComments ⋈ cards ⋈ lists ⋈ boards ⋈ userOrganizations` filtered on
the comment id and requesting user id (`LIMIT 1`).  The source projects
the comment's author (`commentUserId`) out of this row; here the whole
comment row is returned. -/
def commentAccessRow (db : DB) (commentId userId : String) :
    Option CommentRow :=
  db.comments.find? fun cm =>
    cm.id == commentId && cardOrgAccess db cm.cardId userId

/-- JavaScript `x || null` on an optional string: an absent or empty
(falsy) string becomes SQL NULL. -/
def strOrNull (s : Option String) : Option String :=
  match s with
  | some v => if v == "" then none else some v
  | none => none

/-- The query `SELECT position FROM lists WHERE board_id = ? ORDER BY position ASC
LIMIT 1`, at the level of the returned position value: the position of
the first row in ascending order is the minimum position among the
board's lists (`none` when the board has no lists).  This is the query
`ListService.create` uses to compute the default position. -/
def listsFirstPosAsc (db : DB) (boardId : String) : Option Int :=
  (db.lists.filter fun l => l.boardId == boardId).foldl
    (fun acc l =>
      match acc with
      | none => some l.position
      | some p => some (min p l.position))
    none

/-- The query `SELECT position FROM cards WHERE list_id = ? ORDER BY position DESC
LIMIT 1`, at the level of the returned position value: the position of
the first row in descending order is the maximum position among the
list's cards (`none` when the list has no cards).  This is the query
`CardService.create` uses to compute the default position. -/
def cardsFirstPosDesc (db : DB) (listId : String) : Option Int :=
  (db.cards.filter fun c => c.listId == listId).foldl
    (fun acc c =>
      match acc with
      | none => some c.position
      | some p => some (max p c.position))
    none

/-- Stable insertion into a position-sorted list of list rows; together
with `sortByPos` this embeds `ORDER BY lists.position ASC`. -/
def insertByPos (a : ListRow) : List ListRow → List ListRow
  | [] => [a]
  | b :: rest =>
      if a.position ≤ b.position then a :: b :: rest
      else b :: insertByPos a rest

/-- Sorting by ascending position (`ORDER BY lists.position ASC`). -/
def sortByPos (l : List ListRow) : List ListRow :=
  l.foldr insertByPos []

/-! ## ListService (`src/services/list.service.ts`) -/

/-- Argument record of `ListService.create`. -/
structure ListCreateData where
  name : String
  boardId : String
  userId : String
  position : Option Int
deriving DecidableEq

namespace ListService

/-- Method `ListService.getByBoard`: the rows of `lists ⋈ boards ⋈
userOrganizations` filtered on the board id and user id, ordered by
ascending position. -/
def getByBoard (db : DB) (boardId userId : String) : List ListRow :=
  sortByPos (db.lists.filter fun l =>
    l.boardId == boardId && boardOrgAccess db l.boardId userId)

/-- Method `ListService.create`.  `newId` stands for the fresh `createId()`
primary key and `now` for the row timestamps generated by the insert.
The JavaScript guard `if (!position)` treats both an absent position and
an explicit `0` as "compute the default".  The default is taken from the
`ORDER BY position ASC LIMIT 1` query (`listsFirstPosAsc`), plus one.
The `Failed to create list` branch of the source (an insert returning no
row) cannot occur in this model and is omitted. -/
def create (db : DB) (data : ListCreateData) (newId : String)
    (now : Int) : DB × Except String ListRow :=
  if !boardOrgAccess db data.boardId data.userId then
    (db, .error "Access denied to this board")
  else
    let defaultPos : Int :=
      match listsFirstPosAsc db data.boardId with
      | some q => q + 1
      | none => 1
    let position : Int :=
      match data.position with
      | none => defaultPos
      | some p => if p == 0 then defaultPos else p
    let row : ListRow :=
      { id := newId, boardId := data.boardId, name := data.name
        position := position, createdAt := now, updatedAt := now }
    ({ db with lists := db.lists ++ [row] }, .ok row)

end ListService

/-! ## CardService (`src/utils/db.ts`) -/

/-- Argument record of `CardService.create`. -/
structure CardCreateData where
  title : String
  description : Option String
  listId : String
  userId : String
  position : Option Int
  dueDate : Option Int
deriving DecidableEq

/-- Argument record of `CardService.update`.  Each field is tri-state in
the source (`undefined` / `null` / value for `dueDate`, `undefined` /
value for the strings), modelled by nested options: `none` is an omitted
field, `some none` an explicit `null` due date. -/
structure CardUpdateData where
  title : Option String
  description : Option String
  dueDate : Option (Option Int)
deriving DecidableEq

namespace CardService

/-- Method `CardService.getById`: first row of `cards ⋈ lists ⋈ boards ⋈
userOrganizations` filtered on the card id and user id.  The
`leftJoin(users)` of the source only hydrates the creator's name/email
for presentation and does not affect which card row is returned, so it
is not modelled. -/
def getById (db : DB) (cardId userId : String) : Option CardRow :=
  db.cards.find? fun c =>
    c.id == cardId && listOrgAccess db c.listId userId

/-- Method `CardService.create`.  `newId` stands for the fresh `createId()`
primary key and `now` for the generated timestamps.  The JavaScript
guard `if (!position)` treats an absent or explicitly-`0` position as
"compute the default"; the default comes from the `ORDER BY position
DESC LIMIT 1` query (`cardsFirstPosDesc`), plus one.  `description` goes
through `|| null` (`strOrNull`); `dueDate` is a `Date` object, which is
never falsy, so `data.dueDate || null` is the identity on present
values.  After the insert the source re-reads the card through
`getById`; a failed re-read raises `Failed to retrieve created card`.
The `Failed to create card` branch (an insert returning no row) cannot
occur in this model and is omitted. -/
def create (db : DB) (data : CardCreateData) (newId : String)
    (now : Int) : DB × Except String CardRow :=
  if !listOrgAccess db data.listId data.userId then
    (db, .error "Access denied to this list")
  else
    let defaultPos : Int :=
      match cardsFirstPosDesc db data.listId with
      | some q => q + 1
      | none => 1
    let position : Int :=
      match data.position with
      | none => defaultPos
      | some p => if p == 0 then defaultPos else p
    let row : CardRow :=
      { id := newId, listId := data.listId, title := data.title
        description := strOrNull data.description, position := position
        dueDate := data.dueDate, createdBy := data.userId
        createdAt := now, updatedAt := now }
    let db' : DB := { db with cards := db.cards ++ [row] }
    match getById db' newId data.userId with
    | some c => (db', .ok c)
    | none => (db', .error "Failed to retrieve created card")

/-- Method `CardService.update`: after the access check, a partial `SET` built
field by field from the defined (`!== undefined`) members of `data`,
applied to every card row matching the id, then the first updated row is
returned (`.returning()`). -/
def update (db : DB) (cardId userId : String) (data : CardUpdateData)
    (now : Int) : DB × Except String CardRow :=
  if !cardOrgAccess db cardId userId then
    (db, .error "Card not found or access denied")
  else
    let db' : DB :=
      { db with
        cards := db.cards.map fun c =>
          if c.id == cardId then
            { c with
              title := match data.title with
                | none => c.title
                | some t => t
              description := match data.description with
                | none => c.description
                | some d => some d
              dueDate := match data.dueDate with
                | none => c.dueDate
                | some d => d
              updatedAt := now }
          else c }
    (db',
      match db'.cards.find? (fun c => c.id == cardId) with
      | some c => .ok c
      | none => .error "Failed to update card")

/-- Method `CardService.move`: both access queries (card through its current
list's chain, and destination list) are evaluated before the guard; if
either is empty the call throws and nothing is written, otherwise the
card's list reference and position are updated in a single `UPDATE`. -/
def move (db : DB) (cardId userId : String) (listId : String)
    (position : Int) (now : Int) : DB × Except String Unit :=
  let cardAccess := cardOrgAccess db cardId userId
  let listAccess := listOrgAccess db listId userId
  if !cardAccess || !listAccess then
    (db, .error "Card or list not found or access denied")
  else
    ({ db with
        cards := db.cards.map fun c =>
          if c.id == cardId then
            { c with
              listId := listId
              position := position
              updatedAt := now }
          else c },
     .ok ())

end CardService

/-! ## BoardService (`src/services/board.service.ts`) -/

/-- Argument record of `BoardService.create`. -/
structure BoardCreateData where
  name : String
  description : Option String
  organizationId : String
  userId : String
deriving DecidableEq

/-- The `defaultLists` constant of `BoardService.create`, as the rows it
inserts for a fresh board (`tid`, `iid`, `did` are the generated ids of
the three inserts, `now` the generated timestamps). -/
def defaultListRows (boardId tid iid did : String) (now : Int) :
    List ListRow :=
  [ { id := tid, boardId := boardId, name := "To Do", position := 1
      createdAt := now, updatedAt := now },
    { id := iid, boardId := boardId, name := "In Progress", position := 2
      createdAt := now, updatedAt := now },
    { id := did, boardId := boardId, name := "Done", position := 3
      createdAt := now, updatedAt := now } ]

namespace BoardService

/-- Method `BoardService.create`: membership check on the organization, insert
of the board row (`description: data.description || null`), then the
three default list inserts in order.  `newBoardId`/`tid`/`iid`/`did`
stand for the generated `createId()` keys and `now` for the generated
timestamps.  The `Failed to create board` branch (an insert returning no
row) cannot occur in this model and is omitted. -/
def create (db : DB) (data : BoardCreateData)
    (newBoardId tid iid did : String) (now : Int) :
    DB × Except String BoardRow :=
  if !memberOf db data.userId data.organizationId then
    (db, .error "Access denied to this organization")
  else
    let board : BoardRow :=
      { id := newBoardId, organizationId := data.organizationId
        name := data.name, description := strOrNull data.description
        createdBy := data.userId, archivedAt := none
        createdAt := now, updatedAt := now }
    ({ db with
        boards := db.boards ++ [board]
        lists := db.lists ++ defaultListRows newBoardId tid iid did now },
     .ok board)

/-- Method `BoardService.getById`: first row of `boards ⋈ userOrganizations`
filtered on the board id, the user id, and `archived_at IS NULL`. -/
def getById (db : DB) (boardId userId : String) : Option BoardRow :=
  db.boards.find? fun b =>
    b.id == boardId && memberOf db userId b.organizationId &&
      b.archivedAt.isNone

/-- Method `BoardService.update`: re-resolves the board through `getById`
(access and archived check), then overwrites `name` and `description`
(`data.description || null`) on every board row matching the id and
returns the first updated row. -/
def update (db : DB) (boardId userId : String) (name : String)
    (description : Option String) (now : Int) :
    DB × Except String BoardRow :=
  match getById db boardId userId with
  | none => (db, .error "Board not found or access denied")
  | some _ =>
    let db' : DB :=
      { db with
        boards := db.boards.map fun b =>
          if b.id == boardId then
            { b with
              name := name
              description := strOrNull description
              updatedAt := now }
          else b }
    (db',
      match db'.boards.find? (fun b => b.id == boardId) with
      | some b => .ok b
      | none => .error "Failed to update board")

end BoardService

/-! ## CommentService (`src/services/comment.service.ts`) -/

namespace CommentService

/-- Method `CommentService.update`: first the joined access query
(`commentAccessRow`); then the author gate — only the owner of the
comment may edit it; then the content update on every comment row
matching the id, the `.returning()` read-back, and the author's user row
fetch for the hydrated result. -/
def update (db : DB) (commentId requestUserId content : String)
    (now : Int) : DB × Except String CommentRow :=
  match commentAccessRow db commentId requestUserId with
  | none => (db, .error "Comment not found or access denied")
  | some cm =>
    if cm.userId != requestUserId then
      (db, .error "You can only edit your own comments")
    else
      let db' : DB :=
        { db with
          comments := db.comments.map fun c =>
            if c.id == commentId then
              { c with content := content, updatedAt := now }
            else c }
      (db',
        match db'.comments.find? (fun c => c.id == commentId) with
        | none => .error "Failed to update comment"
        | some updated =>
          match db'.users.find? (fun u => u.id == requestUserId) with
          | none => .error "User not found"
          | some _ => .ok updated)

/-- Method `CommentService.delete`: the joined access query, then the author
gate, then a `DELETE` of every comment row matching the id. -/
def delete (db : DB) (commentId requestUserId : String) :
    DB × Except String Unit :=
  match commentAccessRow db commentId requestUserId with
  | none => (db, .error "Comment not found or access denied")
  | some cm =>
    if cm.userId != requestUserId then
      (db, .error "You can only delete your own comments")
    else
      ({ db with
          comments := db.comments.filter fun c => c.id != commentId },
       .ok ())

end CommentService

/-! ## OrganizationService (`src/services/organization.service.ts`) -/

namespace OrganizationService

/-- Method `OrganizationService.update`: the first membership row of the actor
on the organization (`LIMIT 1`); then the role gate
`!['owner','admin'].includes(role)`; then the rename applied to every
organization row matching the id and the `.returning()` read-back. -/
def update (db : DB) (orgId userId name : String) (now : Int) :
    DB × Except String OrganizationRow :=
  match db.memberships.find?
      (fun m => m.organizationId == orgId && m.userId == userId) with
  | none => (db, .error "Organization not found or access denied")
  | some m =>
    if !(m.role == Role.owner || m.role == Role.admin) then
      (db, .error "Insufficient permissions to update organization")
    else
      let db' : DB :=
        { db with
          organizations := db.organizations.map fun o =>
            if o.id == orgId then
              { o with name := name, updatedAt := now }
            else o }
      (db',
        match db'.organizations.find? (fun o => o.id == orgId) with
        | none => .error "Failed to update organization"
        | some o => .ok o)

end OrganizationService

/-! ## Helper lemmas -/

/-- A pointwise property of an in-place table update (`UPDATE ... WHERE`,
modelled by `List.map`). -/
theorem forall2_map_self {α : Type} (P : α → α → Prop) (f : α → α) :
    ∀ l : List α, (∀ a ∈ l, P a (f a)) → List.Forall₂ P l (l.map f)
  | [], _ => List.Forall₂.nil
  | a :: l, h =>
    List.Forall₂.cons (h a (List.mem_cons_self a l))
      (forall2_map_self P f l fun b hb => h b (List.mem_cons_of_mem a hb))

/-- The option-valued maximum fold started at `some p` computes the fold
of `max` over the positions. -/
theorem foldl_optMax_cards (as : List CardRow) : ∀ p : Int,
    as.foldl
      (fun acc c =>
        match acc with
        | none => some c.position
        | some q => some (max q c.position))
      (some p) = some ((as.map fun c => c.position).foldl max p) := by
  induction as with
  | nil => intro p; rfl
  | cons c cs ih => intro p; simp [List.foldl, ih]

/-- The `ORDER BY position DESC LIMIT 1` query of `CardService.create`
returns exactly the maximum position among the list's cards. -/
theorem cardsFirstPosDesc_eq_max (db : DB) (listId : String) :
    cardsFirstPosDesc db listId =
      ((db.cards.filter fun c => c.listId == listId).map
        fun c => c.position).max? := by
  unfold cardsFirstPosDesc
  cases h : db.cards.filter fun c => c.listId == listId with
  | nil => simp
  | cons c cs => simp [List.max?, foldl_optMax_cards]

/-- Shared sample database used by the concrete witnesses: one
organization `o1` with an owner `uB`, a member `uA` and a viewer `uV`;
one board `b1` with lists `l1` (position 1) and `l2` (position 2); cards
`c1`/`c2`/`c3` in `l1` at positions 1, 2, 5; and one comment `cm1` on
`c1` authored by `uA`. -/
def sampleDB : DB :=
  { users :=
      [ { id := "uA", email := "a@x", name := "A" },
        { id := "uB", email := "b@x", name := "B" } ]
    organizations :=
      [ { id := "o1", name := "Org", slug := "org", createdBy := "uB"
          createdAt := 0, updatedAt := 0 } ]
    memberships :=
      [ { userId := "uB", organizationId := "o1", role := Role.owner },
        { userId := "uA", organizationId := "o1", role := Role.member },
        { userId := "uV", organizationId := "o1", role := Role.viewer } ]
    boards :=
      [ { id := "b1", organizationId := "o1", name := "Board"
          description := some "d", createdBy := "uB", archivedAt := none
          createdAt := 0, updatedAt := 0 } ]
    lists :=
      [ { id := "l1", boardId := "b1", name := "To Do", position := 1
          createdAt := 0, updatedAt := 0 },
        { id := "l2", boardId := "b1", name := "In Progress", position := 2
          createdAt := 0, updatedAt := 0 } ]
    cards :=
      [ { id := "c1", listId := "l1", title := "Fix bug"
          description := none, position := 1, dueDate := some 7
          createdBy := "uB", createdAt := 0, updatedAt := 0 },
        { id := "c2", listId := "l1", title := "T2", description := none
          position := 2, dueDate := none, createdBy := "uB"
          createdAt := 0, updatedAt := 0 },
        { id := "c3", listId := "l1", title := "T3", description := none
          position := 5, dueDate := none, createdBy := "uB"
          createdAt := 0, updatedAt := 0 } ]
    comments :=
      [ { id := "cm1", cardId := "c1", userId := "uA"
          content := "original", createdAt := 0, updatedAt := 0 } ] }

/-! ## Claim theorems -/

/-- C1: the claim says a list created without an explicit position gets
`max(existing positions in the board) + 1`.  The code orders the
position query **ascending**, so it computes `min + 1` instead: on a
board whose lists sit at positions 1 and 2, the new list gets position 2
(a duplicate of an existing position), not the claimed 3.  This theorem
evaluates the embedded `ListService.create` at that failing input: the
created row has position 2 while the maximum existing position is
already 2. -/
theorem listCreate_position_min_bug :
    (ListService.create sampleDB
        { name := "New List", boardId := "b1", userId := "uB"
          position := none } "l9" 5).2 =
      Except.ok
        { id := "l9", boardId := "b1", name := "New List", position := 2
          createdAt := 5, updatedAt := 5 }
    ∧ (sampleDB.lists.map fun l => l.position).max? = some 2 := by
  constructor
  · rfl
  · rfl

/-- C4: `BoardService.getById` returns `none` exactly when no board row
matches the id, is unarchived, and has a membership row for the actor on
its organization — so a missing board, an archived board (even for its
creator) and an inaccessible board are indistinguishable in the
result. -/
theorem boardGetById_none_iff (db : DB) (boardId userId : String) :
    BoardService.getById db boardId userId = none ↔
      ¬ ∃ b ∈ db.boards, b.id = boardId ∧ b.archivedAt = none ∧
          ∃ m ∈ db.memberships,
            m.userId = userId ∧ m.organizationId = b.organizationId := by
  simp only [BoardService.getById, List.find?_eq_none, memberOf,
    Bool.and_eq_true, List.any_eq_true, beq_iff_eq,
    Option.isNone_iff_eq_none]
  constructor
  · rintro h ⟨b, hb, hid, harch, m, hm, hu, ho⟩
    exact h b hb ⟨⟨hid, m, hm, hu, ho⟩, harch⟩
  · rintro h b hb ⟨⟨hid, m, hm, hu, ho⟩, harch⟩
    exact h ⟨b, hb, hid, harch, m, hm, hu, ho⟩

/-- C9: in both `CardService.create` and `ListService.create` the guard
`if (!position)` treats an explicitly supplied position `0` (the only
falsy integer) exactly like an absent position: the call is equal, state
and result, to the call with no position, so the entity receives the
computed default position rather than 0. -/
theorem create_positionZero_defaulted (db : DB) (cdata : CardCreateData)
    (ldata : ListCreateData) (cid lid : String) (cnow lnow : Int)
    (hc : cdata.position = some 0) (hl : ldata.position = some 0) :
    CardService.create db cdata cid cnow =
      CardService.create db { cdata with position := none } cid cnow
    ∧ ListService.create db ldata lid lnow =
      ListService.create db { ldata with position := none } lid lnow := by
  constructor
  · simp [CardService.create, hc]
  · simp [ListService.create, hl]

/-- Witness for C9 at a concrete input: creating a card at explicit
position 0 in list `l1` of `sampleDB` and a list at explicit position 0
on board `b1` both behave as if no position had been supplied. -/
theorem create_positionZero_defaulted_witness :
    CardService.create sampleDB
        { title := "T", description := none, listId := "l1"
          userId := "uB", position := some 0, dueDate := none } "c9" 3 =
      CardService.create sampleDB
        { title := "T", description := none, listId := "l1"
          userId := "uB", position := none, dueDate := none } "c9" 3
    ∧ ListService.create sampleDB
        { name := "N", boardId := "b1", userId := "uB"
          position := some 0 } "l9" 3 =
      ListService.create sampleDB
        { name := "N", boardId := "b1", userId := "uB"
          position := none } "l9" 3 :=
  create_positionZero_defaulted sampleDB
    { title := "T", description := none, listId := "l1", userId := "uB"
      position := some 0, dueDate := none }
    { name := "N", boardId := "b1", userId := "uB", position := some 0 }
    "c9" "l9" 3 3 rfl rfl

/-- C2: `CardService.move` evaluates both access queries — the card
through its current list's chain, and the destination list — before the
guard; if either fails the call returns the access error and the
database (in particular the card's list reference and position) is
returned unchanged; if both succeed the matching card's list reference
and position are both updated and every other row is untouched. -/
theorem cardMove_access_frame (db : DB) (cardId userId listId : String)
    (position now : Int) :
    ((cardOrgAccess db cardId userId = false ∨
        listOrgAccess db listId userId = false) →
      CardService.move db cardId userId listId position now =
        (db, Except.error "Card or list not found or access denied"))
    ∧ (cardOrgAccess db cardId userId = true →
        listOrgAccess db listId userId = true →
        ∃ db', CardService.move db cardId userId listId position now =
            (db', Except.ok ())
          ∧ db'.lists = db.lists ∧ db'.boards = db.boards
          ∧ db'.comments = db.comments
          ∧ List.Forall₂ (fun c c' =>
              (c.id = cardId →
                c'.id = c.id ∧ c'.listId = listId ∧
                  c'.position = position)
              ∧ (c.id ≠ cardId → c' = c)) db.cards db'.cards) := by
  constructor
  · intro h
    rcases h with h | h <;> simp [CardService.move, h]
  · intro hc hl
    refine ⟨{ db with
        cards := db.cards.map fun c =>
          if c.id == cardId then
            { c with
              listId := listId
              position := position
              updatedAt := now }
          else c },
      by simp [CardService.move, hc, hl], rfl, rfl, rfl, ?_⟩
    apply forall2_map_self
    intro c _
    constructor
    · intro hid
      simp [hid]
    · intro hid
      simp [beq_iff_eq, hid]

/-- Witness for C2 on `sampleDB`: the owner `uB` can move card `c1` to
list `l2` at position 7 (both fields updated, everything else
untouched), while the stranger `uX`, who has no membership, gets the
access error and the unchanged database. -/
theorem cardMove_access_frame_witness :
    (∃ db', CardService.move sampleDB "c1" "uB" "l2" 7 9 =
        (db', Except.ok ())
      ∧ db'.lists = sampleDB.lists ∧ db'.boards = sampleDB.boards
      ∧ db'.comments = sampleDB.comments
      ∧ List.Forall₂ (fun c c' =>
          (c.id = "c1" →
            c'.id = c.id ∧ c'.listId = "l2" ∧ c'.position = 7)
          ∧ (c.id ≠ "c1" → c' = c)) sampleDB.cards db'.cards)
    ∧ CardService.move sampleDB "c1" "uX" "l2" 7 9 =
        (sampleDB, Except.error "Card or list not found or access denied") :=
  ⟨(cardMove_access_frame sampleDB "c1" "uB" "l2" 7 9).2
      (by decide) (by decide),
   (cardMove_access_frame sampleDB "c1" "uX" "l2" 7 9).1
      (Or.inl (by decide))⟩

/-- C3: when the access query of `CommentService.update`/`delete` finds
a row (the actor has organization membership over the comment) but the
actor is not the comment's author, both calls fail with the author-gate
error — a message distinct from the access-denied one — and return the
database unchanged, whatever the actor's role. -/
theorem commentWrite_author_gate (db : DB)
    (commentId requestUserId content : String) (now : Int)
    (cm : CommentRow)
    (hrow : commentAccessRow db commentId requestUserId = some cm)
    (hne : cm.userId ≠ requestUserId) :
    CommentService.update db commentId requestUserId content now =
      (db, Except.error "You can only edit your own comments")
    ∧ CommentService.delete db commentId requestUserId =
      (db, Except.error "You can only delete your own comments")
    ∧ "You can only edit your own comments" ≠
        "Comment not found or access denied"
    ∧ "You can only delete your own comments" ≠
        "Comment not found or access denied" := by
  refine ⟨?_, ?_, by decide, by decide⟩
  · unfold CommentService.update
    rw [hrow]
    simp [hne]
  · unfold CommentService.delete
    rw [hrow]
    simp [hne]

/-- Witness for C3 on `sampleDB`: the organization owner `uB` (full
board access, highest role) cannot edit or delete the comment `cm1`
authored by the member `uA`. -/
theorem commentWrite_author_gate_witness :
    CommentService.update sampleDB "cm1" "uB" "new content" 5 =
      (sampleDB, Except.error "You can only edit your own comments")
    ∧ CommentService.delete sampleDB "cm1" "uB" =
      (sampleDB, Except.error "You can only delete your own comments")
    ∧ "You can only edit your own comments" ≠
        "Comment not found or access denied"
    ∧ "You can only delete your own comments" ≠
        "Comment not found or access denied" :=
  commentWrite_author_gate sampleDB "cm1" "uB" "new content" 5
    { id := "cm1", cardId := "c1", userId := "uA", content := "original"
      createdAt := 0, updatedAt := 0 }
    (by decide) (by decide)

/-- C6: a card created without an explicit position is appended to the
database with position `max(existing positions in the target list) + 1`,
or position 1 when the list has no cards, and the call returns the
created row. -/
theorem cardCreate_defaultPosition (db : DB) (data : CardCreateData)
    (newId : String) (now : Int)
    (hacc : listOrgAccess db data.listId data.userId = true)
    (hpos : data.position = none)
    (hfresh : ∀ c ∈ db.cards, c.id ≠ newId) :
    ∃ db' row,
      CardService.create db data newId now = (db', Except.ok row)
      ∧ db'.cards = db.cards ++ [row]
      ∧ ((db.cards.filter fun c => c.listId == data.listId) = [] →
          row.position = 1)
      ∧ (∀ m,
          ((db.cards.filter fun c => c.listId == data.listId).map
              fun c => c.position).max? = some m →
          row.position = m + 1) := by
  classical
  set dp : Int :=
    match cardsFirstPosDesc db data.listId with
    | some q => q + 1
    | none => 1 with hdp
  set row : CardRow :=
    { id := newId, listId := data.listId, title := data.title
      description := strOrNull data.description, position := dp
      dueDate := data.dueDate, createdBy := data.userId
      createdAt := now, updatedAt := now } with hrow
  set db' : DB := { db with cards := db.cards ++ [row] } with hdb'
  have hacc' : listOrgAccess db' data.listId data.userId = true := hacc
  have hnotold :
      db.cards.find?
        (fun c => c.id == newId && listOrgAccess db' c.listId data.userId)
        = none := by
    rw [List.find?_eq_none]
    intro c hc
    simp [beq_iff_eq, hfresh c hc]
  have hget : CardService.getById db' newId data.userId = some row := by
    unfold CardService.getById
    rw [show db'.cards = db.cards ++ [row] from rfl, List.find?_append,
      hnotold]
    simp [hrow, hacc']
  refine ⟨db', row, ?_, rfl, ?_, ?_⟩
  · unfold CardService.create
    rw [hacc]
    simp only [Bool.not_true, Bool.false_eq_true, if_false, hpos, hget]
  · intro hempty
    have : cardsFirstPosDesc db data.listId = none := by
      rw [cardsFirstPosDesc_eq_max, hempty]
      rfl
    simp [hrow, hdp, this]
  · intro m hm
    have : cardsFirstPosDesc db data.listId = some m := by
      rw [cardsFirstPosDesc_eq_max, hm]
    simp [hrow, hdp, this]

/-- Witness for C6 on `sampleDB`: list `l1` holds cards at positions
[1, 2, 5], so a card created there by the owner `uB` without an explicit
position lands at position 6. -/
theorem cardCreate_defaultPosition_witness :
    (∃ db' row,
      CardService.create sampleDB
          { title := "New", description := none, listId := "l1"
            userId := "uB", position := none, dueDate := none } "c9" 3 =
        (db', Except.ok row)
      ∧ db'.cards = sampleDB.cards ++ [row]
      ∧ ((sampleDB.cards.filter fun c => c.listId == "l1") = [] →
          row.position = 1)
      ∧ (∀ m,
          ((sampleDB.cards.filter fun c => c.listId == "l1").map
              fun c => c.position).max? = some m →
          row.position = m + 1))
    ∧ ((sampleDB.cards.filter fun c => c.listId == "l1").map
        fun c => c.position).max? = some 5 :=
  ⟨cardCreate_defaultPosition sampleDB
      { title := "New", description := none, listId := "l1"
        userId := "uB", position := none, dueDate := none } "c9" 3
      (by decide) rfl (by decide),
   by decide⟩

/-- C5: a successful `BoardService.create` appends exactly the three
default lists "To Do" (position 1), "In Progress" (position 2), "Done"
(position 3) for the new board, and an immediately following
`ListService.getByBoard` on the unchanged result state returns exactly
these three rows in that order. -/
theorem boardCreate_defaultLists (db : DB) (data : BoardCreateData)
    (bid tid iid did : String) (now : Int)
    (hmem : memberOf db data.userId data.organizationId = true)
    (hlfresh : ∀ l ∈ db.lists, l.boardId ≠ bid) :
    ∃ db' board,
      BoardService.create db data bid tid iid did now =
        (db', Except.ok board)
      ∧ db'.lists = db.lists ++ defaultListRows bid tid iid did now
      ∧ ListService.getByBoard db' bid data.userId =
          defaultListRows bid tid iid did now
      ∧ (defaultListRows bid tid iid did now).map
          (fun l => (l.name, l.position)) =
          [("To Do", 1), ("In Progress", 2), ("Done", 3)] := by
  set board : BoardRow :=
    { id := bid, organizationId := data.organizationId
      name := data.name, description := strOrNull data.description
      createdBy := data.userId, archivedAt := none
      createdAt := now, updatedAt := now } with hboard
  set db' : DB :=
    { db with
      boards := db.boards ++ [board]
      lists := db.lists ++ defaultListRows bid tid iid did now } with hdb'
  have hmem' : memberOf db' data.userId data.organizationId = true := hmem
  have haccess : boardOrgAccess db' bid data.userId = true := by
    unfold boardOrgAccess
    rw [show db'.boards = db.boards ++ [board] from rfl, List.any_append]
    simp [hboard, hmem']
  have hold :
      db.lists.filter
        (fun l => l.boardId == bid &&
          boardOrgAccess db' l.boardId data.userId) = [] := by
    rw [List.filter_eq_nil_iff]
    intro l hl
    simp [beq_iff_eq, hlfresh l hl]
  refine ⟨db', board, ?_, rfl, ?_, rfl⟩
  · unfold BoardService.create
    rw [hmem]
    simp only [Bool.not_true, Bool.false_eq_true, if_false]
  · unfold ListService.getByBoard
    rw [show db'.lists = db.lists ++ defaultListRows bid tid iid did now
          from rfl,
      List.filter_append, hold, List.nil_append]
    have hkeep :
        (defaultListRows bid tid iid did now).filter
          (fun l => l.boardId == bid &&
            boardOrgAccess db' l.boardId data.userId) =
          defaultListRows bid tid iid did now := by
      simp [defaultListRows, haccess]
    rw [hkeep]
    simp [defaultListRows, sortByPos, insertByPos]

/-- Witness for C5 on `sampleDB`: the owner `uB` creates board "Sprint 1"
in organization `o1`; the three default lists are created and read back
in order. -/
theorem boardCreate_defaultLists_witness :
    ∃ db' board,
      BoardService.create sampleDB
          { name := "Sprint 1", description := none
            organizationId := "o1", userId := "uB" }
          "b9" "t1" "t2" "t3" 4 =
        (db', Except.ok board)
      ∧ db'.lists = sampleDB.lists ++ defaultListRows "b9" "t1" "t2" "t3" 4
      ∧ ListService.getByBoard db' "b9" "uB" =
          defaultListRows "b9" "t1" "t2" "t3" 4
      ∧ (defaultListRows "b9" "t1" "t2" "t3" 4).map
          (fun l => (l.name, l.position)) =
          [("To Do", 1), ("In Progress", 2), ("Done", 3)] :=
  boardCreate_defaultLists sampleDB
    { name := "Sprint 1", description := none, organizationId := "o1"
      userId := "uB" }
    "b9" "t1" "t2" "t3" 4 (by decide) (by decide)

/-- C7: `CardService.update` with access granted builds its `SET` from
the defined fields only: an omitted (`none`) title, description or due
date leaves the prior value, a provided title/description overwrites it,
an explicit `null` due date (`some none`) clears it, and the card's
position and list reference (and every other card) are untouched; the
collections other than `cards` are untouched as well. -/
theorem cardUpdate_partial (db : DB) (cardId userId : String)
    (data : CardUpdateData) (now : Int)
    (hacc : cardOrgAccess db cardId userId = true) :
    (CardService.update db cardId userId data now).1.lists = db.lists
    ∧ (CardService.update db cardId userId data now).1.boards = db.boards
    ∧ List.Forall₂ (fun c c' =>
        (c.id ≠ cardId → c' = c)
        ∧ (c.id = cardId →
            c'.id = c.id ∧ c'.listId = c.listId ∧
            c'.position = c.position ∧
            (data.title = none → c'.title = c.title) ∧
            (∀ t, data.title = some t → c'.title = t) ∧
            (data.description = none → c'.description = c.description) ∧
            (data.dueDate = none → c'.dueDate = c.dueDate) ∧
            (data.dueDate = some none → c'.dueDate = none) ∧
            (∀ d, data.dueDate = some (some d) → c'.dueDate = some d)))
        db.cards (CardService.update db cardId userId data now).1.cards := by
  unfold CardService.update
  rw [hacc]
  simp only [Bool.not_true, Bool.false_eq_true, if_false]
  refine ⟨by trivial, by trivial, ?_⟩
  apply forall2_map_self
  intro c _
  constructor
  · intro hid
    simp [beq_iff_eq, hid]
  · intro hid
    have hcond : (c.id == cardId) = true := by
      rw [hid]
      exact beq_self_eq_true cardId
    rw [if_pos hcond]
    refine ⟨rfl, rfl, rfl, ?_, ?_, ?_, ?_, ?_, ?_⟩
    · intro h
      rw [h]
    · intro t h
      rw [h]
    · intro h
      rw [h]
    · intro h
      rw [h]
    · intro h
      rw [h]
    · intro d h
      rw [h]

/-- Witness for C7 on `sampleDB`: the owner `uB` updates card `c1`
(due date `some 7`, position 1 in list `l1`) supplying only an explicit
`null` due date; the due date is cleared while title, position and list
reference keep their prior values. -/
theorem cardUpdate_partial_witness :
    (CardService.update sampleDB "c1" "uB"
        { title := none, description := none, dueDate := some none }
        9).1.lists = sampleDB.lists
    ∧ (CardService.update sampleDB "c1" "uB"
        { title := none, description := none, dueDate := some none }
        9).1.boards = sampleDB.boards
    ∧ List.Forall₂ (fun c c' =>
        (c.id ≠ "c1" → c' = c)
        ∧ (c.id = "c1" →
            c'.id = c.id ∧ c'.listId = c.listId ∧
            c'.position = c.position ∧
            ((none : Option String) = none → c'.title = c.title) ∧
            (∀ t, (none : Option String) = some t → c'.title = t) ∧
            ((none : Option String) = none →
              c'.description = c.description) ∧
            ((some none : Option (Option Int)) = none →
              c'.dueDate = c.dueDate) ∧
            ((some none : Option (Option Int)) = some none →
              c'.dueDate = none) ∧
            (∀ d, (some none : Option (Option Int)) = some (some d) →
              c'.dueDate = some d)))
        sampleDB.cards
        (CardService.update sampleDB "c1" "uB"
          { title := none, description := none, dueDate := some none }
          9).1.cards :=
  cardUpdate_partial sampleDB "c1" "uB"
    { title := none, description := none, dueDate := some none } 9
    (by decide)

/-- Read-back of an `UPDATE ... WHERE` + `.returning()`: if the update
function preserves the selection predicate and some row satisfies it,
then `find?` on the updated table returns the updated image of a
matching original row. -/
theorem find?_map_of_exists {α : Type} (p : α → Bool) (f : α → α)
    (hp : ∀ a, p (f a) = p a) :
    ∀ l : List α, (∃ a ∈ l, p a = true) →
      ∃ a ∈ l, p a = true ∧ (l.map f).find? p = some (f a) := by
  intro l
  induction l with
  | nil =>
    rintro ⟨a, ha, _⟩
    cases ha
  | cons x rest ih =>
    rintro ⟨a, ha, hpa⟩
    cases hx : p x with
    | true =>
      refine ⟨x, List.mem_cons_self x rest, hx, ?_⟩
      have hfx : p (f x) = true := by
        rw [hp, hx]
      rw [List.map_cons, List.find?_cons_of_pos _ hfx]
    | false =>
      have hrest : ∃ a ∈ rest, p a = true := by
        rcases List.mem_cons.mp ha with rfl | hmem
        · rw [hx] at hpa
          cases hpa
        · exact ⟨a, hmem, hpa⟩
      obtain ⟨b, hb, hpb, hfind⟩ := ih hrest
      refine ⟨b, List.mem_cons_of_mem x hb, hpb, ?_⟩
      have hfx : ¬ p (f x) = true := by
        rw [hp, hx]
        exact Bool.false_ne_true
      rw [List.map_cons, List.find?_cons_of_neg _ hfx, hfind]

/-- C8: `OrganizationService.update` fails with the not-found/denied
error when the actor has no membership row on the organization; fails
with the insufficient-permission error (organization unchanged) when the
membership role is `member` or `viewer`; and when the role is `owner` or
`admin` (and the organization row exists) it succeeds, setting the new
name on the organization and touching nothing else. -/
theorem orgUpdate_role_gate (db : DB) (orgId userId name : String)
    (now : Int) :
    (db.memberships.find?
        (fun r => r.organizationId == orgId && r.userId == userId) =
          none →
      OrganizationService.update db orgId userId name now =
        (db, Except.error "Organization not found or access denied"))
    ∧ (∀ m, db.memberships.find?
          (fun r => r.organizationId == orgId && r.userId == userId) =
            some m →
        (m.role = Role.member ∨ m.role = Role.viewer) →
        OrganizationService.update db orgId userId name now =
          (db,
            Except.error "Insufficient permissions to update organization"))
    ∧ (∀ m, db.memberships.find?
          (fun r => r.organizationId == orgId && r.userId == userId) =
            some m →
        (m.role = Role.owner ∨ m.role = Role.admin) →
        (∃ o ∈ db.organizations, o.id = orgId) →
        ∃ db' o, OrganizationService.update db orgId userId name now =
            (db', Except.ok o)
          ∧ o.id = orgId ∧ o.name = name
          ∧ db'.boards = db.boards ∧ db'.memberships = db.memberships
          ∧ List.Forall₂ (fun a b =>
              (a.id = orgId →
                b.id = a.id ∧ b.name = name ∧ b.slug = a.slug)
              ∧ (a.id ≠ orgId → b = a))
              db.organizations db'.organizations) := by
  refine ⟨?_, ?_, ?_⟩
  · intro h
    unfold OrganizationService.update
    rw [h]
  · intro m hm hrole
    have hroleB : (!(m.role == Role.owner || m.role == Role.admin)) =
        true := by
      rcases hrole with h | h <;> rw [h] <;> rfl
    unfold OrganizationService.update
    simp [hm, hroleB]
  · intro m hm hrole hex
    have hroleB : (!(m.role == Role.owner || m.role == Role.admin)) =
        false := by
      rcases hrole with h | h <;> rw [h] <;> rfl
    have hp : ∀ o : OrganizationRow,
        ((if o.id == orgId then
            { o with name := name, updatedAt := now }
          else o).id == orgId) = (o.id == orgId) := by
      intro o
      cases h : (o.id == orgId) <;> simp [h]
    have hex' : ∃ o ∈ db.organizations, (o.id == orgId) = true := by
      obtain ⟨o, ho, hid⟩ := hex
      exact ⟨o, ho, by rw [hid]; exact beq_self_eq_true orgId⟩
    obtain ⟨a, hamem, hpa, hfind⟩ :=
      find?_map_of_exists (fun o => o.id == orgId)
        (fun o =>
          if o.id == orgId then { o with name := name, updatedAt := now }
          else o)
        hp db.organizations hex'
    rw [if_pos hpa] at hfind
    unfold OrganizationService.update
    simp only [hm, hroleB, Bool.false_eq_true, if_false, hfind]
    refine ⟨_, _, rfl, ?_, rfl, rfl, rfl, ?_⟩
    · exact beq_iff_eq.mp hpa
    · apply forall2_map_self
      intro o _
      constructor
      · intro hid
        have hcond : (o.id == orgId) = true := by
          rw [hid]
          exact beq_self_eq_true orgId
        rw [if_pos hcond]
        exact ⟨rfl, rfl, rfl⟩
      · intro hid
        rw [if_neg (by simp [beq_iff_eq, hid])]

/-- Witness for C8 on `sampleDB`: the stranger `uX` gets the
not-found/denied error, the member `uA` gets the insufficient-permission
error with the state unchanged, and the owner `uB` renames `o1`. -/
theorem orgUpdate_role_gate_witness :
    OrganizationService.update sampleDB "o1" "uX" "NewOrg" 7 =
      (sampleDB, Except.error "Organization not found or access denied")
    ∧ OrganizationService.update sampleDB "o1" "uA" "NewOrg" 7 =
      (sampleDB,
        Except.error "Insufficient permissions to update organization")
    ∧ ∃ db' o, OrganizationService.update sampleDB "o1" "uB" "NewOrg" 7 =
        (db', Except.ok o)
      ∧ o.id = "o1" ∧ o.name = "NewOrg"
      ∧ db'.boards = sampleDB.boards
      ∧ db'.memberships = sampleDB.memberships
      ∧ List.Forall₂ (fun a b =>
          (a.id = "o1" → b.id = a.id ∧ b.name = "NewOrg" ∧ b.slug = a.slug)
          ∧ (a.id ≠ "o1" → b = a))
          sampleDB.organizations db'.organizations :=
  ⟨(orgUpdate_role_gate sampleDB "o1" "uX" "NewOrg" 7).1 (by decide),
   (orgUpdate_role_gate sampleDB "o1" "uA" "NewOrg" 7).2.1
     { userId := "uA", organizationId := "o1", role := Role.member }
     (by decide) (Or.inl rfl),
   (orgUpdate_role_gate sampleDB "o1" "uB" "NewOrg" 7).2.2
     { userId := "uB", organizationId := "o1", role := Role.owner }
     (by decide) (Or.inl rfl)
     ⟨{ id := "o1", name := "Org", slug := "org", createdBy := "uB"
        createdAt := 0, updatedAt := 0 }, by decide, rfl⟩⟩

/-- C10: a successful `BoardService.update` (the board resolves through
`getById`) is a full overwrite: the board's name becomes the supplied
name and its description becomes the supplied description when that is a
non-empty string, and `null` otherwise — an omitted or empty-string
description clears any existing description.  Other boards and the other
tables are untouched. -/
theorem boardUpdate_overwrite (db : DB) (boardId userId name : String)
    (description : Option String) (now : Int) (b0 : BoardRow)
    (hget : BoardService.getById db boardId userId = some b0) :
    ∃ db' b', BoardService.update db boardId userId name description now =
        (db', Except.ok b')
      ∧ b'.id = boardId ∧ b'.name = name
      ∧ db'.cards = db.cards ∧ db'.lists = db.lists
      ∧ List.Forall₂ (fun b bb =>
          (b.id = boardId →
            bb.id = b.id ∧ bb.name = name ∧
            bb.organizationId = b.organizationId ∧
            bb.archivedAt = b.archivedAt ∧
            (∀ s, description = some s → s ≠ "" → bb.description = some s)
            ∧ (description = none → bb.description = none)
            ∧ (description = some "" → bb.description = none))
          ∧ (b.id ≠ boardId → bb = b))
          db.boards
          (BoardService.update db boardId userId name description now).1.boards := by
  have hb0 : (b0.id == boardId) = true := by
    have := List.find?_some hget
    simp only [Bool.and_eq_true] at this
    exact this.1.1
  have hb0mem : b0 ∈ db.boards := List.mem_of_find?_eq_some hget
  have hp : ∀ b : BoardRow,
      ((if b.id == boardId then
          { b with
            name := name
            description := strOrNull description
            updatedAt := now }
        else b).id == boardId) = (b.id == boardId) := by
    intro b
    cases h : (b.id == boardId) <;> simp [h]
  obtain ⟨a, hamem, hpa, hfind⟩ :=
    find?_map_of_exists (fun b => b.id == boardId)
      (fun b =>
        if b.id == boardId then
          { b with
            name := name
            description := strOrNull description
            updatedAt := now }
        else b)
      hp db.boards ⟨b0, hb0mem, hb0⟩
  rw [if_pos hpa] at hfind
  have hdesc : ∀ bb : BoardRow, bb.description = strOrNull description →
      (∀ s, description = some s → s ≠ "" → bb.description = some s)
      ∧ (description = none → bb.description = none)
      ∧ (description = some "" → bb.description = none) := by
    intro bb hbb
    refine ⟨?_, ?_, ?_⟩
    · intro s hs hne
      rw [hbb, hs]
      simp [strOrNull, hne]
    · intro hs
      rw [hbb, hs]
      rfl
    · intro hs
      rw [hbb, hs]
      rfl
  unfold BoardService.update
  simp only [hget, hfind]
  refine ⟨_, _, rfl, beq_iff_eq.mp hpa, rfl, rfl, rfl, ?_⟩
  apply forall2_map_self
  intro b _
  constructor
  · intro hid
    have hcond : (b.id == boardId) = true := by
      rw [hid]
      exact beq_self_eq_true boardId
    rw [if_pos hcond]
    exact ⟨rfl, rfl, rfl, rfl, hdesc _ rfl⟩
  · intro hid
    rw [if_neg (by simp [beq_iff_eq, hid])]

/-- Witness for C10 on `sampleDB`: the owner `uB` updates board `b1`
(whose description is `some "d"`) with a new name and no description;
the name is overwritten and the description is cleared. -/
theorem boardUpdate_overwrite_witness :
    ∃ db' b', BoardService.update sampleDB "b1" "uB" "Renamed" none 8 =
        (db', Except.ok b')
      ∧ b'.id = "b1" ∧ b'.name = "Renamed"
      ∧ db'.cards = sampleDB.cards ∧ db'.lists = sampleDB.lists
      ∧ List.Forall₂ (fun b bb =>
          (b.id = "b1" →
            bb.id = b.id ∧ bb.name = "Renamed" ∧
            bb.organizationId = b.organizationId ∧
            bb.archivedAt = b.archivedAt ∧
            (∀ s, (none : Option String) = some s → s ≠ "" →
              bb.description = some s)
            ∧ ((none : Option String) = none → bb.description = none)
            ∧ ((none : Option String) = some "" → bb.description = none))
          ∧ (b.id ≠ "b1" → bb = b))
          sampleDB.boards
          (BoardService.update sampleDB "b1" "uB" "Renamed" none 8).1.boards :=
  boardUpdate_overwrite sampleDB "b1" "uB" "Renamed" none 8
    { id := "b1", organizationId := "o1", name := "Board"
      description := some "d", createdBy := "uB", archivedAt := none
      createdAt := 0, updatedAt := 0 }
    (by decide)

end AiKanban
